import Mathlib

/-!
Verification of the interpolated-string removal rule
(`src/rules/remove_interpolated_string.rs`) of the darklua transformation
core, against its natural-language specification.

The AST node model, traversal engine, scope tracker and configuration
protocol live outside the sampled source; those pieces are modelled from
the spec (sections 3, 4.2-4.5) and marked as such.  The rule itself
(`replace_with`, `process_expression`, `flawless_process`, `configure`,
`serialize_to_properties`) is translated directly from the Rust source.
-/

mutual

/-- Modelled from the spec (section 3, Node Model): expressions are a closed
variant set with at least `InterpolatedString`, string literals, function
calls, field expressions and name references; an interpolated string is an
ordered sequence of segments, each a literal-text fragment or an embedded
expression.  Custom list types are used so the family is a plain mutual
inductive. -/
inductive Expression where
  | interpolatedString (segments : SegmentList)
  | stringExpr (value : String)
  | functionCall (callee : String) (arguments : ExpressionList)
  | fieldExpr (object : String) (field : String)
  | identifier (name : String)
  deriving DecidableEq

inductive ExpressionList where
  | nil
  | cons (head : Expression) (tail : ExpressionList)
  deriving DecidableEq

inductive InterpolationSegment where
  | stringSegment (value : String)
  | valueSegment (expression : Expression)
  deriving DecidableEq

inductive SegmentList where
  | nil
  | cons (head : InterpolationSegment) (tail : SegmentList)
  deriving DecidableEq

end

mutual

/-- Modelled from the spec (section 3): statements cover local-variable
declarations, call statements and nested blocks (`do` scopes); a block is an
ordered sequence of statements. -/
inductive Statement where
  | localAssign (names : List String) (values : ExpressionList)
  | callStmt (callee : String) (arguments : ExpressionList)
  | doStmt (body : StatementList)
  deriving DecidableEq

inductive StatementList where
  | nil
  | cons (head : Statement) (tail : StatementList)
  deriving DecidableEq

end

abbrev Block := StatementList

/-- `SegmentList.isEmpty`: emptiness check exposed by
`InterpolatedStringExpression` (spec section 4.1, `string.is_empty()` in the
source). -/
def SegmentList.isEmpty : SegmentList → Bool
  | .nil => true
  | .cons _ _ => false

/-- One step of Rust's `str::replace('%', "%%")`: a `'%'` character expands
to two, every other character is kept. -/
def escapeChar (c : Char) : List Char :=
  if c = '%' then ['%', '%'] else [c]

/-- `string_segment.get_value().replace('%', "%%")` from the source:
character-wise expansion of `'%'` into `"%%"`. -/
def escapePercent (s : String) : String :=
  ⟨s.data.flatMap escapeChar⟩

/-- The accumulator-passing shape of the `iter_segments().fold` in
`replace_with` (source lines 51-65): a `String` segment appends its
escaped text, a `Value` segment appends the placeholder `"%*"`. -/
def formatStringFold : String → SegmentList → String
  | acc, .nil => acc
  | acc, .cons (.stringSegment s) rest => formatStringFold (acc ++ escapePercent s) rest
  | acc, .cons (.valueSegment _) rest => formatStringFold (acc ++ "%*") rest

/-- The format template built by `replace_with` from the segments,
starting from `String::new()`. -/
def formatString (segments : SegmentList) : String :=
  formatStringFold "" segments

/-- The `filter_map` over segments in `replace_with` (source lines 69-77):
the embedded expression of every `Value` segment, in order; `String`
segments contribute nothing. -/
def valueArguments : SegmentList → ExpressionList
  | .nil => .nil
  | .cons (.stringSegment _) rest => valueArguments rest
  | .cons (.valueSegment e) rest => .cons e (valueArguments rest)

/-- The processor struct from the source (lines 13-17).  The embedded
`IdentifierTracker` is omitted: the rule never consults it (spec section
4.6: the synthetic identifier is chosen by convention, without a collision
check). -/
structure RemoveInterpolatedStringProcessor where
  string_format_identifier : String
  define_string_format : Bool
  deriving DecidableEq

/-- `RemoveInterpolatedStringProcessor::new` (source lines 37-43): stores
the identifier and initializes `define_string_format` to `false`. -/
def RemoveInterpolatedStringProcessor.new (string_format_identifier : String) :
    RemoveInterpolatedStringProcessor :=
  { string_format_identifier := string_format_identifier
    define_string_format := false }

/-- `RemoveInterpolatedStringProcessor::replace_with` (source lines 45-84):
an empty interpolated string becomes the empty string literal with no state
change; otherwise the flag is set and the replacement is a call to the
stored identifier whose arguments are the format template string literal
followed by the value segments' expressions (Rust's `clone` is modelled as
the value itself: a deep copy is structurally equal). -/
def RemoveInterpolatedStringProcessor.replace_with
    (p : RemoveInterpolatedStringProcessor) (string : SegmentList) :
    Expression × RemoveInterpolatedStringProcessor :=
  if string.isEmpty then
    (.stringExpr "", p)
  else
    (.functionCall p.string_format_identifier
        (.cons (.stringExpr (formatString string)) (valueArguments string)),
      { p with define_string_format := true })

mutual

/-- Modelled from the spec (sections 4.3, 4.4): the scope-aware traversal
engine, fused with the processor's `process_expression` hook (source lines
88-92).  The hook fires on an expression before the engine descends into
expressions nested within it; on an `InterpolatedString` it performs
`replace_with`, and the engine then descends into the replacement call's
arguments: the fresh string literal (a no-op for the hook, with no nested
expressions) and the value segments' cloned expressions, in order.  The
scope tracker's push/pop bookkeeping is omitted: this processor never
queries it, so it cannot affect the output. -/
def visitExpr (p : RemoveInterpolatedStringProcessor) :
    Expression → Expression × RemoveInterpolatedStringProcessor
  | .interpolatedString SegmentList.nil => (.stringExpr "", p)
  | .interpolatedString (SegmentList.cons s rest) =>
      let (args, p2) :=
        visitValueSegs { p with define_string_format := true } (SegmentList.cons s rest)
      (.functionCall p.string_format_identifier
          (.cons (.stringExpr (formatString (SegmentList.cons s rest))) args),
        p2)
  | .stringExpr s => (.stringExpr s, p)
  | .functionCall callee args =>
      let (args2, p2) := visitExprList p args
      (.functionCall callee args2, p2)
  | .fieldExpr object field => (.fieldExpr object field, p)
  | .identifier n => (.identifier n, p)

/-- Traversal of an argument list, left to right, threading the processor. -/
def visitExprList (p : RemoveInterpolatedStringProcessor) :
    ExpressionList → ExpressionList × RemoveInterpolatedStringProcessor
  | .nil => (.nil, p)
  | .cons e rest =>
      let (e2, p2) := visitExpr p e
      let (rest2, p3) := visitExprList p2 rest
      (.cons e2 rest2, p3)

/-- Traversal of the value-segment expressions of a just-replaced
interpolated string, in segment order (the engine visits them as the
arguments of the replacement call). -/
def visitValueSegs (p : RemoveInterpolatedStringProcessor) :
    SegmentList → ExpressionList × RemoveInterpolatedStringProcessor
  | .nil => (.nil, p)
  | .cons (.stringSegment _) rest => visitValueSegs p rest
  | .cons (.valueSegment e) rest =>
      let (e2, p2) := visitExpr p e
      let (rest2, p3) := visitValueSegs p2 rest
      (.cons e2 rest2, p3)

end

mutual

/-- Modelled from the spec (section 4.3): statement traversal offers every
expression reachable from the statement to the hook, in source order, and
recurses into nested blocks. -/
def visitStmt (p : RemoveInterpolatedStringProcessor) :
    Statement → Statement × RemoveInterpolatedStringProcessor
  | .localAssign names values =>
      let (values2, p2) := visitExprList p values
      (.localAssign names values2, p2)
  | .callStmt callee args =>
      let (args2, p2) := visitExprList p args
      (.callStmt callee args2, p2)
  | .doStmt body =>
      let (body2, p2) := visitStmtList p body
      (.doStmt body2, p2)

/-- Traversal of a statement list, in program order. -/
def visitStmtList (p : RemoveInterpolatedStringProcessor) :
    StatementList → StatementList × RemoveInterpolatedStringProcessor
  | .nil => (.nil, p)
  | .cons s rest =>
      let (s2, p2) := visitStmt p s
      let (rest2, p3) := visitStmtList p2 rest
      (.cons s2 rest2, p3)

end

/-- `ScopeVisitor::visit_block` as used by the rule: depth-first traversal
of a block's statements, mutating in place (modelled as returning the new
block and processor). -/
def visitBlock (p : RemoveInterpolatedStringProcessor) (block : Block) :
    Block × RemoveInterpolatedStringProcessor :=
  visitStmtList p block

/-- Modelled from the spec (section 3, Block): insertion at an index shifts
subsequent statements without disturbing their content (`Block::insert_statement`). -/
def StatementList.insertStatement : StatementList → Nat → Statement → StatementList
  | block, 0, stmt => .cons stmt block
  | .nil, _ + 1, stmt => .cons stmt .nil
  | .cons h t, n + 1, stmt => .cons h (StatementList.insertStatement t n stmt)

/-- Modelled from the spec (section 6): the shared compile context is an
opaque bag of cross-cutting pipeline metadata; this core does not read or
write it. -/
structure Context where
  metadata : List (String × String)
  deriving DecidableEq

/-- `DEFAULT_STRING_LIBRARY` (source line 33). -/
def DEFAULT_STRING_LIBRARY : String := "string"

/-- `DEFAULT_STRING_FORMAT_NAME` (source line 34). -/
def DEFAULT_STRING_FORMAT_NAME : String := "format"

/-- `STRING_FORMAT_IDENTIFIER` (source line 103): the reserved synthetic
identifier. -/
def STRING_FORMAT_IDENTIFIER : String := "__DARKLUA_STR_FMT"

/-- The prelude statement built on source lines 111-118: a local-variable
declaration binding the synthetic identifier to `string.format`. -/
def preludeStatement : Statement :=
  .localAssign [STRING_FORMAT_IDENTIFIER]
    (.cons (.fieldExpr DEFAULT_STRING_LIBRARY DEFAULT_STRING_FORMAT_NAME) .nil)

/-- The unit struct `RemoveInterpolatedString` (source line 99): the rule
has no configurable options and no fields. -/
structure RemoveInterpolatedString where
  deriving DecidableEq

/-- `RemoveInterpolatedString::flawless_process` (source lines 102-121):
build a fresh processor, traverse the block, and if the run-scoped flag was
set insert the prelude statement at index 0 of the top-level block. -/
def RemoveInterpolatedString.flawless_process
    (_rule : RemoveInterpolatedString) (block : Block) (_ctx : Context) : Block :=
  let processor := RemoveInterpolatedStringProcessor.new STRING_FORMAT_IDENTIFIER
  let (block2, processor2) := visitBlock processor block
  if processor2.define_string_format then
    block2.insertStatement 0 preludeStatement
  else
    block2

/-- Modelled from the spec (sections 3, 4.5): a property-bag value is
dynamically typed (string, boolean, number or nested map keys are not
needed here). -/
inductive RulePropertyValue where
  | stringValue (value : String)
  | booleanValue (value : Bool)
  | numberValue (value : Int)
  deriving DecidableEq

/-- Modelled from the spec (section 3): a key-unique mapping from option
names to dynamically-typed values, iterated in order. -/
abbrev RuleProperties := List (String × RulePropertyValue)

/-- Modelled from the spec (section 7): the configuration error taxonomy. -/
inductive RuleConfigurationError where
  | UnexpectedProperty (key : String)
  | InvalidPropertyValue (key : String) (reason : String)
  deriving DecidableEq

/-- `RuleConfiguration::configure` for the rule (source lines 125-131):
return `UnexpectedProperty` on the first key of the bag, else succeed; the
rule value itself is returned unchanged (Rust's `&mut self` is never
written). -/
def RemoveInterpolatedString.configure (rule : RemoveInterpolatedString)
    (properties : RuleProperties) :
    Except RuleConfigurationError Unit × RemoveInterpolatedString :=
  match properties with
  | [] => (.ok (), rule)
  | (key, _) :: _ => (.error (.UnexpectedProperty key), rule)

/-- `REMOVE_INTERPOLATED_STRING_RULE_NAME` (source line 95). -/
def REMOVE_INTERPOLATED_STRING_RULE_NAME : String := "remove_interpolated_string"

/-- `RuleConfiguration::get_name` (source lines 133-135). -/
def RemoveInterpolatedString.get_name (_rule : RemoveInterpolatedString) : String :=
  REMOVE_INTERPOLATED_STRING_RULE_NAME

/-- `RuleConfiguration::serialize_to_properties` (source lines 137-139):
always the empty bag. -/
def RemoveInterpolatedString.serialize_to_properties
    (_rule : RemoveInterpolatedString) : RuleProperties :=
  []

mutual

/-- Does the expression contain a non-empty interpolated string anywhere
(the condition under which the rule sets its run-scoped flag)? -/
def Expression.hasNonEmptyInterp : Expression → Bool
  | .interpolatedString SegmentList.nil => false
  | .interpolatedString (SegmentList.cons _ _) => true
  | .stringExpr _ => false
  | .functionCall _ args => args.hasNonEmptyInterp
  | .fieldExpr _ _ => false
  | .identifier _ => false

/-- Does any expression of the list contain a non-empty interpolated
string? -/
def ExpressionList.hasNonEmptyInterp : ExpressionList → Bool
  | .nil => false
  | .cons e rest => e.hasNonEmptyInterp || rest.hasNonEmptyInterp

end

/-- Does any value segment's expression contain a non-empty interpolated
string? -/
def SegmentList.valuesHaveNonEmptyInterp : SegmentList → Bool
  | .nil => false
  | .cons (.stringSegment _) rest => rest.valuesHaveNonEmptyInterp
  | .cons (.valueSegment e) rest =>
      e.hasNonEmptyInterp || rest.valuesHaveNonEmptyInterp

mutual

/-- Does the expression contain any interpolated string at all, empty ones
included? -/
def Expression.hasInterp : Expression → Bool
  | .interpolatedString _ => true
  | .stringExpr _ => false
  | .functionCall _ args => args.hasInterp
  | .fieldExpr _ _ => false
  | .identifier _ => false

/-- Does any expression of the list contain an interpolated string? -/
def ExpressionList.hasInterp : ExpressionList → Bool
  | .nil => false
  | .cons e rest => e.hasInterp || rest.hasInterp

end

mutual

/-- Does the statement contain a non-empty interpolated string anywhere,
nested scopes included? -/
def Statement.hasNonEmptyInterp : Statement → Bool
  | .localAssign _ values => values.hasNonEmptyInterp
  | .callStmt _ args => args.hasNonEmptyInterp
  | .doStmt body => body.hasNonEmptyInterp

/-- Does any statement of the list contain a non-empty interpolated
string? -/
def StatementList.hasNonEmptyInterp : StatementList → Bool
  | .nil => false
  | .cons s rest => s.hasNonEmptyInterp || rest.hasNonEmptyInterp

end

mutual

/-- Does the statement contain any interpolated string, nested scopes
included? -/
def Statement.hasInterp : Statement → Bool
  | .localAssign _ values => values.hasInterp
  | .callStmt _ args => args.hasInterp
  | .doStmt body => body.hasInterp

/-- Does any statement of the list contain an interpolated string? -/
def StatementList.hasInterp : StatementList → Bool
  | .nil => false
  | .cons s rest => s.hasInterp || rest.hasInterp

end

mutual

/-- Total number of statements in a statement, nested blocks included
(used to show prelude insertion happens exactly once, at the top level). -/
def Statement.deepCount : Statement → Nat
  | .localAssign _ _ => 1
  | .callStmt _ _ => 1
  | .doStmt body => 1 + body.deepCount

/-- Total number of statements in a list, nested blocks included. -/
def StatementList.deepCount : StatementList → Nat
  | .nil => 0
  | .cons s rest => s.deepCount + rest.deepCount

end

/-- Number of top-level statements of a block. -/
def StatementList.length : StatementList → Nat
  | .nil => 0
  | .cons _ rest => 1 + rest.length

/-- Number of `Value` segments in a segment sequence. -/
def SegmentList.valueCount : SegmentList → Nat
  | .nil => 0
  | .cons (.stringSegment _) rest => rest.valueCount
  | .cons (.valueSegment _) rest => 1 + rest.valueCount

/-- Number of expressions in an expression list. -/
def ExpressionList.length : ExpressionList → Nat
  | .nil => 0
  | .cons _ rest => 1 + rest.length

/-- Is every segment a literal-text (`String`) segment? -/
def SegmentList.allStringSegments : SegmentList → Bool
  | .nil => true
  | .cons (.stringSegment _) rest => rest.allStringSegments
  | .cons (.valueSegment _) _ => false

/-- Following the spec's words ("for a `String` segment, its literal text
with every literal `%` character escaped to `%%`; for a `Value` segment,
the fixed two-character placeholder `%*`"): the contribution of one
segment to the format template. -/
def specSegmentTemplate : InterpolationSegment → String
  | .stringSegment s => escapePercent s
  | .valueSegment _ => "%*"

/-- Following the spec's words: the format template is the concatenation,
in segment order, of each segment's contribution. -/
def specFormatTemplate : SegmentList → String
  | .nil => ""
  | .cons seg rest => specSegmentTemplate seg ++ specFormatTemplate rest

/-- The `Default`-derived value of the option-less unit rule struct
(source line 98). -/
def RemoveInterpolatedString.defaultRule : RemoveInterpolatedString := {}

/-- A concrete compile context for concrete runs. -/
def demoContext : Context := { metadata := [] }

/-- Concrete segments with a `%` in literal text: `[String "a%b", Value x]`. -/
def c1segs : SegmentList :=
  .cons (.stringSegment "a%b") (.cons (.valueSegment (.identifier "x")) .nil)

/-- Concrete segments of the spec's worked scenario:
`[String "x=", Value a, String "!"]`. -/
def c2segs : SegmentList :=
  .cons (.stringSegment "x=")
    (.cons (.valueSegment (.identifier "a")) (.cons (.stringSegment "!") .nil))

/-- A concrete block whose only interpolated string is empty. -/
def c3block : Block :=
  .cons (.callStmt "print" (.cons (.interpolatedString .nil) .nil)) .nil

/-- A concrete block with two non-empty interpolated strings, one inside a
nested scope. -/
def c4block : Block :=
  .cons
    (.callStmt "print"
      (.cons (.interpolatedString (.cons (.valueSegment (.identifier "a")) .nil)) .nil))
    (.cons
      (.doStmt
        (.cons
          (.callStmt "g"
            (.cons (.interpolatedString (.cons (.stringSegment "hi") .nil)) .nil))
          .nil))
      .nil)

/-- A concrete block containing no interpolated string. -/
def c5block : Block :=
  .cons (.localAssign ["y"] (.cons (.identifier "x") .nil)) .nil

/-- Concrete segments with only literal-text segments. -/
def c10segs : SegmentList := .cons (.stringSegment "hello") .nil

/-- The concrete single-statement block wrapping an interpolated string
made only of literal-text segments. -/
def c10block : Block :=
  .cons (.callStmt "print" (.cons (.interpolatedString c10segs) .nil)) .nil

mutual

/-- State evolution of the traversal: the processor that comes out of an
expression visit keeps its identifier and has its flag set exactly when it
was already set or the expression contains a non-empty interpolated
string. -/
theorem visitExpr_state (e : Expression) (p : RemoveInterpolatedStringProcessor) :
    (visitExpr p e).2 =
      { p with define_string_format :=
          p.define_string_format || e.hasNonEmptyInterp } := by
  cases e with
  | interpolatedString segs =>
    cases segs with
    | nil => simp [visitExpr, Expression.hasNonEmptyInterp]
    | cons s rest =>
      have h := visitValueSegs_state (SegmentList.cons s rest)
        { p with define_string_format := true }
      rcases hv : visitValueSegs { p with define_string_format := true }
        (SegmentList.cons s rest) with ⟨args, p2⟩
      rw [hv] at h
      simp only [visitExpr, hv, Expression.hasNonEmptyInterp]
      simp at h ⊢
      exact h
  | stringExpr s => simp [visitExpr, Expression.hasNonEmptyInterp]
  | functionCall callee args =>
    have h := visitExprList_state args p
    rcases hv : visitExprList p args with ⟨args2, p2⟩
    rw [hv] at h
    simp only [visitExpr, hv, Expression.hasNonEmptyInterp]
    exact h
  | fieldExpr object field => simp [visitExpr, Expression.hasNonEmptyInterp]
  | identifier n => simp [visitExpr, Expression.hasNonEmptyInterp]

/-- State evolution over an expression list. -/
theorem visitExprList_state (l : ExpressionList) (p : RemoveInterpolatedStringProcessor) :
    (visitExprList p l).2 =
      { p with define_string_format :=
          p.define_string_format || l.hasNonEmptyInterp } := by
  cases l with
  | nil => simp [visitExprList, ExpressionList.hasNonEmptyInterp]
  | cons e rest =>
    have h1 := visitExpr_state e p
    rcases hv1 : visitExpr p e with ⟨e2, p2⟩
    rw [hv1] at h1
    have h2 := visitExprList_state rest p2
    rcases hv2 : visitExprList p2 rest with ⟨rest2, p3⟩
    rw [hv2] at h2
    simp only [visitExprList, hv1, hv2, ExpressionList.hasNonEmptyInterp]
    simp at h1 h2 ⊢
    rw [h2, h1]
    simp [Bool.or_assoc]

/-- State evolution over the value segments of a replaced interpolated
string. -/
theorem visitValueSegs_state (segs : SegmentList) (p : RemoveInterpolatedStringProcessor) :
    (visitValueSegs p segs).2 =
      { p with define_string_format :=
          p.define_string_format || segs.valuesHaveNonEmptyInterp } := by
  cases segs with
  | nil => simp [visitValueSegs, SegmentList.valuesHaveNonEmptyInterp]
  | cons seg rest =>
    cases seg with
    | stringSegment s =>
      have h := visitValueSegs_state rest p
      simp only [visitValueSegs, SegmentList.valuesHaveNonEmptyInterp]
      exact h
    | valueSegment e =>
      have h1 := visitExpr_state e p
      rcases hv1 : visitExpr p e with ⟨e2, p2⟩
      rw [hv1] at h1
      have h2 := visitValueSegs_state rest p2
      rcases hv2 : visitValueSegs p2 rest with ⟨rest2, p3⟩
      rw [hv2] at h2
      simp only [visitValueSegs, hv1, hv2, SegmentList.valuesHaveNonEmptyInterp]
      simp at h1 h2 ⊢
      rw [h2, h1]
      simp [Bool.or_assoc]

end

mutual

/-- State evolution over a statement. -/
theorem visitStmt_state (s : Statement) (p : RemoveInterpolatedStringProcessor) :
    (visitStmt p s).2 =
      { p with define_string_format :=
          p.define_string_format || s.hasNonEmptyInterp } := by
  cases s with
  | localAssign names values =>
    have h := visitExprList_state values p
    rcases hv : visitExprList p values with ⟨values2, p2⟩
    rw [hv] at h
    simp only [visitStmt, hv, Statement.hasNonEmptyInterp]
    exact h
  | callStmt callee args =>
    have h := visitExprList_state args p
    rcases hv : visitExprList p args with ⟨args2, p2⟩
    rw [hv] at h
    simp only [visitStmt, hv, Statement.hasNonEmptyInterp]
    exact h
  | doStmt body =>
    have h := visitStmtList_state body p
    rcases hv : visitStmtList p body with ⟨body2, p2⟩
    rw [hv] at h
    simp only [visitStmt, hv, Statement.hasNonEmptyInterp]
    exact h

/-- State evolution over a statement list. -/
theorem visitStmtList_state (l : StatementList) (p : RemoveInterpolatedStringProcessor) :
    (visitStmtList p l).2 =
      { p with define_string_format :=
          p.define_string_format || l.hasNonEmptyInterp } := by
  cases l with
  | nil => simp [visitStmtList, StatementList.hasNonEmptyInterp]
  | cons s rest =>
    have h1 := visitStmt_state s p
    rcases hv1 : visitStmt p s with ⟨s2, p2⟩
    rw [hv1] at h1
    have h2 := visitStmtList_state rest p2
    rcases hv2 : visitStmtList p2 rest with ⟨rest2, p3⟩
    rw [hv2] at h2
    simp only [visitStmtList, hv1, hv2, StatementList.hasNonEmptyInterp]
    simp at h1 h2 ⊢
    rw [h2, h1]
    simp [Bool.or_assoc]

end

mutual

/-- An expression containing no interpolated string is left untouched by
the traversal, and so is the processor. -/
theorem visitExpr_noop (e : Expression) (p : RemoveInterpolatedStringProcessor)
    (h : e.hasInterp = false) : visitExpr p e = (e, p) := by
  cases e with
  | interpolatedString segs => simp [Expression.hasInterp] at h
  | stringExpr s => simp [visitExpr]
  | functionCall callee args =>
    have h2 := visitExprList_noop args p (by simpa [Expression.hasInterp] using h)
    simp [visitExpr, h2]
  | fieldExpr object field => simp [visitExpr]
  | identifier n => simp [visitExpr]

/-- An expression list containing no interpolated string is left untouched
by the traversal. -/
theorem visitExprList_noop (l : ExpressionList) (p : RemoveInterpolatedStringProcessor)
    (h : l.hasInterp = false) : visitExprList p l = (l, p) := by
  cases l with
  | nil => simp [visitExprList]
  | cons e rest =>
    rw [ExpressionList.hasInterp, Bool.or_eq_false_iff] at h
    have h1 := visitExpr_noop e p h.1
    have h2 := visitExprList_noop rest p h.2
    simp [visitExprList, h1, h2]

end

mutual

/-- A statement containing no interpolated string is left untouched by the
traversal. -/
theorem visitStmt_noop (s : Statement) (p : RemoveInterpolatedStringProcessor)
    (h : s.hasInterp = false) : visitStmt p s = (s, p) := by
  cases s with
  | localAssign names values =>
    have h2 := visitExprList_noop values p (by simpa [Statement.hasInterp] using h)
    simp [visitStmt, h2]
  | callStmt callee args =>
    have h2 := visitExprList_noop args p (by simpa [Statement.hasInterp] using h)
    simp [visitStmt, h2]
  | doStmt body =>
    have h2 := visitStmtList_noop body p (by simpa [Statement.hasInterp] using h)
    simp [visitStmt, h2]

/-- A statement list containing no interpolated string is left untouched by
the traversal. -/
theorem visitStmtList_noop (l : StatementList) (p : RemoveInterpolatedStringProcessor)
    (h : l.hasInterp = false) : visitStmtList p l = (l, p) := by
  cases l with
  | nil => simp [visitStmtList]
  | cons s rest =>
    rw [StatementList.hasInterp, Bool.or_eq_false_iff] at h
    have h1 := visitStmt_noop s p h.1
    have h2 := visitStmtList_noop rest p h.2
    simp [visitStmtList, h1, h2]

end

mutual

/-- An expression with no interpolated string at all has in particular no
non-empty one. -/
theorem exprNoInterp_noNonEmpty (e : Expression)
    (h : e.hasInterp = false) : e.hasNonEmptyInterp = false := by
  cases e with
  | interpolatedString segs => simp [Expression.hasInterp] at h
  | stringExpr s => simp [Expression.hasNonEmptyInterp]
  | functionCall callee args =>
    have h2 := exprListNoInterp_noNonEmpty args
      (by simpa [Expression.hasInterp] using h)
    simpa [Expression.hasNonEmptyInterp] using h2
  | fieldExpr object field => simp [Expression.hasNonEmptyInterp]
  | identifier n => simp [Expression.hasNonEmptyInterp]

/-- An expression list with no interpolated string has no non-empty one. -/
theorem exprListNoInterp_noNonEmpty (l : ExpressionList)
    (h : l.hasInterp = false) : l.hasNonEmptyInterp = false := by
  cases l with
  | nil => simp [ExpressionList.hasNonEmptyInterp]
  | cons e rest =>
    rw [ExpressionList.hasInterp, Bool.or_eq_false_iff] at h
    have h1 := exprNoInterp_noNonEmpty e h.1
    have h2 := exprListNoInterp_noNonEmpty rest h.2
    simp [ExpressionList.hasNonEmptyInterp, h1, h2]

end

mutual

/-- A statement with no interpolated string has no non-empty one. -/
theorem stmtNoInterp_noNonEmpty (s : Statement)
    (h : s.hasInterp = false) : s.hasNonEmptyInterp = false := by
  cases s with
  | localAssign names values =>
    have h2 := exprListNoInterp_noNonEmpty values
      (by simpa [Statement.hasInterp] using h)
    simpa [Statement.hasNonEmptyInterp] using h2
  | callStmt callee args =>
    have h2 := exprListNoInterp_noNonEmpty args
      (by simpa [Statement.hasInterp] using h)
    simpa [Statement.hasNonEmptyInterp] using h2
  | doStmt body =>
    have h2 := stmtListNoInterp_noNonEmpty body
      (by simpa [Statement.hasInterp] using h)
    simpa [Statement.hasNonEmptyInterp] using h2

/-- A statement list with no interpolated string has no non-empty one. -/
theorem stmtListNoInterp_noNonEmpty (l : StatementList)
    (h : l.hasInterp = false) : l.hasNonEmptyInterp = false := by
  cases l with
  | nil => simp [StatementList.hasNonEmptyInterp]
  | cons s rest =>
    rw [StatementList.hasInterp, Bool.or_eq_false_iff] at h
    have h1 := stmtNoInterp_noNonEmpty s h.1
    have h2 := stmtListNoInterp_noNonEmpty rest h.2
    simp [StatementList.hasNonEmptyInterp, h1, h2]

end

mutual

/-- The traversal rewrites expressions only: a visited statement has the
same deep statement count as the original. -/
theorem visitStmt_deepCount (s : Statement) (p : RemoveInterpolatedStringProcessor) :
    (visitStmt p s).1.deepCount = s.deepCount := by
  cases s with
  | localAssign names values =>
    rcases hv : visitExprList p values with ⟨values2, p2⟩
    simp [visitStmt, hv, Statement.deepCount]
  | callStmt callee args =>
    rcases hv : visitExprList p args with ⟨args2, p2⟩
    simp [visitStmt, hv, Statement.deepCount]
  | doStmt body =>
    have h := visitStmtList_deepCount body p
    rcases hv : visitStmtList p body with ⟨body2, p2⟩
    rw [hv] at h
    simp only [visitStmt, hv, Statement.deepCount]
    simp at h ⊢
    exact h

/-- The traversal inserts or removes no statement anywhere: deep statement
counts are preserved. -/
theorem visitStmtList_deepCount (l : StatementList) (p : RemoveInterpolatedStringProcessor) :
    (visitStmtList p l).1.deepCount = l.deepCount := by
  cases l with
  | nil => simp [visitStmtList]
  | cons s rest =>
    have h1 := visitStmt_deepCount s p
    rcases hv1 : visitStmt p s with ⟨s2, p2⟩
    rw [hv1] at h1
    have h2 := visitStmtList_deepCount rest p2
    rcases hv2 : visitStmtList p2 rest with ⟨rest2, p3⟩
    rw [hv2] at h2
    simp only [visitStmtList, hv1, hv2, StatementList.deepCount]
    simp at h1 h2 ⊢
    rw [h1, h2]

end

/-- The traversal preserves the number of top-level statements. -/
theorem visitStmtList_length (l : StatementList) (p : RemoveInterpolatedStringProcessor) :
    (visitStmtList p l).1.length = l.length := by
  cases l with
  | nil => simp [visitStmtList]
  | cons s rest =>
    rcases hv1 : visitStmt p s with ⟨s2, p2⟩
    have h2 := visitStmtList_length rest p2
    rcases hv2 : visitStmtList p2 rest with ⟨rest2, p3⟩
    rw [hv2] at h2
    simp only [visitStmtList, hv1, hv2, StatementList.length]
    simp at h2 ⊢
    exact h2

/-- The accumulator-passing fold of the source equals the accumulator
followed by the spec's segment-order concatenation. -/
theorem formatStringFold_spec (segs : SegmentList) (acc : String) :
    formatStringFold acc segs = acc ++ specFormatTemplate segs := by
  cases segs with
  | nil => rw [formatStringFold, specFormatTemplate, String.append_empty]
  | cons seg rest =>
    cases seg with
    | stringSegment s =>
      rw [formatStringFold, formatStringFold_spec rest, specFormatTemplate,
        specSegmentTemplate, String.append_assoc]
    | valueSegment e =>
      rw [formatStringFold, formatStringFold_spec rest, specFormatTemplate,
        specSegmentTemplate, String.append_assoc]

/-- The source's format template is exactly the spec's segment-order
concatenation. -/
theorem formatString_spec (segs : SegmentList) :
    formatString segs = specFormatTemplate segs := by
  rw [formatString, formatStringFold_spec, String.empty_append]

/-- Character-level escaping doubles every `'%'` of the input. -/
theorem escapeList_count (l : List Char) :
    (l.flatMap escapeChar).count '%' = 2 * l.count '%' := by
  induction l with
  | nil => simp
  | cons c l ih =>
    by_cases hc : c = '%'
    · subst hc
      simp [escapeChar, List.count_cons, ih]
      omega
    · simp [escapeChar, hc, List.count_cons, ih]

/-- `escapePercent` doubles every `'%'` of the input string. -/
theorem escapePercent_count (s : String) :
    (escapePercent s).data.count '%' = 2 * s.data.count '%' :=
  escapeList_count s.data

/-- The in-order value-argument extraction yields one expression per
`Value` segment. -/
theorem valueArguments_length (segs : SegmentList) :
    (valueArguments segs).length = segs.valueCount := by
  cases segs with
  | nil => rfl
  | cons seg rest =>
    cases seg with
    | stringSegment s =>
      rw [valueArguments, SegmentList.valueCount, valueArguments_length rest]
    | valueSegment e =>
      rw [valueArguments, ExpressionList.length, SegmentList.valueCount,
        valueArguments_length rest]

/-- A segment sequence with only literal-text segments contributes no
value arguments. -/
theorem valueArguments_allString (segs : SegmentList)
    (h : segs.allStringSegments = true) : valueArguments segs = .nil := by
  cases segs with
  | nil => rfl
  | cons seg rest =>
    cases seg with
    | stringSegment s =>
      rw [valueArguments, valueArguments_allString rest
        (by simpa [SegmentList.allStringSegments] using h)]
    | valueSegment e => simp [SegmentList.allStringSegments] at h

/-- Shape of `flawless_process`: the traversed block, with the prelude
statement prepended exactly when the block contains a non-empty
interpolated string. -/
theorem flawless_process_eq (rule : RemoveInterpolatedString) (b : Block) (ctx : Context) :
    rule.flawless_process b ctx =
      if b.hasNonEmptyInterp then
        StatementList.cons preludeStatement
          (visitBlock (RemoveInterpolatedStringProcessor.new STRING_FORMAT_IDENTIFIER) b).1
      else
        (visitBlock (RemoveInterpolatedStringProcessor.new STRING_FORMAT_IDENTIFIER) b).1 := by
  have h := visitStmtList_state b (RemoveInterpolatedStringProcessor.new STRING_FORMAT_IDENTIFIER)
  rcases hv : visitStmtList (RemoveInterpolatedStringProcessor.new STRING_FORMAT_IDENTIFIER) b
    with ⟨b2, p2⟩
  rw [hv] at h
  simp [RemoveInterpolatedStringProcessor.new] at h
  cases hb : b.hasNonEmptyInterp <;>
    simp [RemoveInterpolatedString.flawless_process, visitBlock, hv, h, hb,
      StatementList.insertStatement]

/-- C1: for every interpolated string with at least one segment, the format
template built by the rule is the concatenation, in segment order, of the
escaped literal text of each `String` segment (every `%` doubled to `%%`)
and the two-character placeholder `%*` for each `Value` segment, in the
position matching that segment's place. -/
theorem c1_format_template (segs : SegmentList) (s : String)
    (_h : segs ≠ SegmentList.nil) :
    formatString segs = specFormatTemplate segs ∧
    (escapePercent s).data.count '%' = 2 * s.data.count '%' :=
  ⟨formatString_spec segs, escapePercent_count s⟩

/-- Witness for C1 at `[String "a%b", Value x]` and literal text `"10%"`. -/
theorem c1_format_template_witness :
    formatString c1segs = specFormatTemplate c1segs ∧
    (escapePercent "10%").data.count '%' = 2 * ("10%".data.count '%') :=
  c1_format_template c1segs "10%" (by decide)

/-- C2: for every non-empty interpolated string, the replacement is a call
to the stored identifier whose arguments are the format template string
literal followed, in original segment order, by each `Value` segment's
embedded expression (a structurally equal deep copy), one argument per
value segment. -/
theorem c2_replacement_call (p : RemoveInterpolatedStringProcessor)
    (segs : SegmentList) (h : segs ≠ SegmentList.nil) :
    (p.replace_with segs).1 =
      .functionCall p.string_format_identifier
        (.cons (.stringExpr (formatString segs)) (valueArguments segs)) ∧
    (valueArguments segs).length = segs.valueCount := by
  have hne : segs.isEmpty = false := by
    cases segs with
    | nil => exact absurd rfl h
    | cons s rest => rfl
  exact ⟨by simp [RemoveInterpolatedStringProcessor.replace_with, hne],
    valueArguments_length segs⟩

/-- Witness for C2 at `[String "x=", Value a, String "!"]`. -/
theorem c2_replacement_call_witness :
    ((RemoveInterpolatedStringProcessor.new STRING_FORMAT_IDENTIFIER).replace_with
        c2segs).1 =
      .functionCall
        (RemoveInterpolatedStringProcessor.new
          STRING_FORMAT_IDENTIFIER).string_format_identifier
        (.cons (.stringExpr (formatString c2segs)) (valueArguments c2segs)) ∧
    (valueArguments c2segs).length = c2segs.valueCount :=
  c2_replacement_call (RemoveInterpolatedStringProcessor.new STRING_FORMAT_IDENTIFIER)
    c2segs (by decide)

/-- C3: an interpolated string with zero segments is replaced by the empty
string literal, with the processor (in particular its flag) unchanged, and
a block whose interpolated strings are all empty gets no prelude
statement. -/
theorem c3_empty_interpolation (p : RemoveInterpolatedStringProcessor)
    (rule : RemoveInterpolatedString) (b : Block) (ctx : Context)
    (hb : b.hasNonEmptyInterp = false) :
    p.replace_with SegmentList.nil = (.stringExpr "", p) ∧
    visitExpr p (.interpolatedString SegmentList.nil) = (.stringExpr "", p) ∧
    rule.flawless_process b ctx =
      (visitBlock (RemoveInterpolatedStringProcessor.new STRING_FORMAT_IDENTIFIER) b).1 := by
  refine ⟨by simp [RemoveInterpolatedStringProcessor.replace_with, SegmentList.isEmpty],
    by simp [visitExpr], ?_⟩
  rw [flawless_process_eq, hb]
  simp

/-- Witness for C3 at a block whose one interpolated string is empty. -/
theorem c3_empty_interpolation_witness :
    (RemoveInterpolatedStringProcessor.new STRING_FORMAT_IDENTIFIER).replace_with
        SegmentList.nil =
      (.stringExpr "", RemoveInterpolatedStringProcessor.new STRING_FORMAT_IDENTIFIER) ∧
    visitExpr (RemoveInterpolatedStringProcessor.new STRING_FORMAT_IDENTIFIER)
        (.interpolatedString SegmentList.nil) =
      (.stringExpr "", RemoveInterpolatedStringProcessor.new STRING_FORMAT_IDENTIFIER) ∧
    RemoveInterpolatedString.defaultRule.flawless_process c3block demoContext =
      (visitBlock (RemoveInterpolatedStringProcessor.new STRING_FORMAT_IDENTIFIER)
        c3block).1 :=
  c3_empty_interpolation (RemoveInterpolatedStringProcessor.new STRING_FORMAT_IDENTIFIER)
    RemoveInterpolatedString.defaultRule c3block demoContext (by decide)

/-- C4: a block containing at least one non-empty interpolated string (in
any nesting) gains exactly one prelude statement, placed at index 0 of the
top-level block: the local declaration binding the synthetic identifier to
`string.format`; the traversal inserts no other statement anywhere, so the
declaration is never duplicated. -/
theorem c4_single_prelude (rule : RemoveInterpolatedString) (b : Block)
    (ctx : Context) (hb : b.hasNonEmptyInterp = true) :
    rule.flawless_process b ctx =
      StatementList.cons preludeStatement
        (visitBlock (RemoveInterpolatedStringProcessor.new STRING_FORMAT_IDENTIFIER) b).1 ∧
    (visitBlock (RemoveInterpolatedStringProcessor.new STRING_FORMAT_IDENTIFIER)
        b).1.deepCount = b.deepCount ∧
    (rule.flawless_process b ctx).deepCount = b.deepCount + 1 ∧
    preludeStatement =
      .localAssign [STRING_FORMAT_IDENTIFIER]
        (.cons (.fieldExpr DEFAULT_STRING_LIBRARY DEFAULT_STRING_FORMAT_NAME) .nil) := by
  refine ⟨?_, visitStmtList_deepCount b _, ?_, rfl⟩
  · rw [flawless_process_eq, hb]
    simp
  · rw [flawless_process_eq, hb]
    simp [StatementList.deepCount, preludeStatement, Statement.deepCount, visitBlock]
    rw [visitStmtList_deepCount]
    omega

/-- Witness for C4 at a block with two non-empty interpolated strings, one
inside a nested scope. -/
theorem c4_single_prelude_witness :
    RemoveInterpolatedString.defaultRule.flawless_process c4block demoContext =
      StatementList.cons preludeStatement
        (visitBlock (RemoveInterpolatedStringProcessor.new STRING_FORMAT_IDENTIFIER)
          c4block).1 ∧
    (visitBlock (RemoveInterpolatedStringProcessor.new STRING_FORMAT_IDENTIFIER)
        c4block).1.deepCount = c4block.deepCount ∧
    (RemoveInterpolatedString.defaultRule.flawless_process c4block
        demoContext).deepCount = c4block.deepCount + 1 ∧
    preludeStatement =
      .localAssign [STRING_FORMAT_IDENTIFIER]
        (.cons (.fieldExpr DEFAULT_STRING_LIBRARY DEFAULT_STRING_FORMAT_NAME) .nil) :=
  c4_single_prelude RemoveInterpolatedString.defaultRule c4block demoContext (by decide)

/-- C5: a block containing zero interpolated-string expressions is returned
structurally unchanged, with no prelude inserted. -/
theorem c5_noop (rule : RemoveInterpolatedString) (b : Block) (ctx : Context)
    (hb : b.hasInterp = false) : rule.flawless_process b ctx = b := by
  have hne := stmtListNoInterp_noNonEmpty b hb
  have hvisit := visitStmtList_noop b
    (RemoveInterpolatedStringProcessor.new STRING_FORMAT_IDENTIFIER) hb
  rw [flawless_process_eq, hne]
  simp [visitBlock, hvisit]

/-- Witness for C5 at a block with no interpolated string. -/
theorem c5_noop_witness :
    RemoveInterpolatedString.defaultRule.flawless_process c5block demoContext = c5block :=
  c5_noop RemoveInterpolatedString.defaultRule c5block demoContext (by decide)

/-- C6: configuring with a property bag holding at least one key fails with
`UnexpectedProperty` naming that offending key and leaves the rule value
unchanged; configuring with the empty bag succeeds, also leaving the rule
unchanged. -/
theorem c6_configure_rejects (rule : RemoveInterpolatedString) (key : String)
    (value : RulePropertyValue) (rest : RuleProperties) :
    rule.configure ((key, value) :: rest) =
      (.error (.UnexpectedProperty key), rule) ∧
    rule.configure [] = (.ok (), rule) :=
  ⟨rfl, rfl⟩

/-- C7: the round-trip law for the option-less rule: the default rule
serializes to the empty bag, and configuring from the empty bag succeeds
and serializes back to the empty bag. -/
theorem c7_round_trip :
    RemoveInterpolatedString.defaultRule.serialize_to_properties = [] ∧
    RemoveInterpolatedString.defaultRule.configure [] =
      (.ok (), RemoveInterpolatedString.defaultRule) ∧
    (RemoveInterpolatedString.defaultRule.configure
        []).2.serialize_to_properties = [] :=
  ⟨rfl, rfl, rfl⟩

/-- C8: the run-scoped flag is initialized to `false` by the processor
constructor invoked at the start of each top-level call, and after
traversal it equals the initial flag OR-ed with the presence of a
non-empty interpolated string: it is set exactly on such an encounter and
never reset mid-call. -/
theorem c8_flag_lifecycle (id : String) (b : Block)
    (p : RemoveInterpolatedStringProcessor) :
    (RemoveInterpolatedStringProcessor.new id).define_string_format = false ∧
    (visitBlock p b).2 =
      { p with define_string_format :=
          p.define_string_format || b.hasNonEmptyInterp } :=
  ⟨rfl, visitStmtList_state b p⟩

/-- C9: the rule's entry point never reads or writes the compile context:
for any two contexts and the same block the results coincide. -/
theorem c9_context_independent (rule : RemoveInterpolatedString) (b : Block)
    (ctx1 ctx2 : Context) :
    rule.flawless_process b ctx1 = rule.flawless_process b ctx2 :=
  rfl

/-- C10: every non-empty interpolated string made only of `String` segments
is still rewritten into a call to the synthetic identifier with exactly one
argument (the template) rather than collapsed into a plain string literal,
the flag is set, and the prelude declaration is inserted for a block
containing it. -/
theorem c10_all_string_segments (p : RemoveInterpolatedStringProcessor)
    (ctx : Context) (segs : SegmentList) (h1 : segs ≠ SegmentList.nil)
    (h2 : segs.allStringSegments = true) :
    p.replace_with segs =
      (.functionCall p.string_format_identifier
          (.cons (.stringExpr (formatString segs)) .nil),
        { p with define_string_format := true }) ∧
    RemoveInterpolatedString.defaultRule.flawless_process
        (.cons (.callStmt "print" (.cons (.interpolatedString segs) .nil)) .nil) ctx =
      StatementList.cons preludeStatement
        (visitBlock (RemoveInterpolatedStringProcessor.new STRING_FORMAT_IDENTIFIER)
          (.cons (.callStmt "print" (.cons (.interpolatedString segs) .nil)) .nil)).1 := by
  constructor
  · have hne : segs.isEmpty = false := by
      cases hs : segs with
      | nil => exact absurd hs h1
      | cons s rest => rfl
    simp [RemoveInterpolatedStringProcessor.replace_with, hne,
      valueArguments_allString segs h2]
  · have hb : (StatementList.cons
        (.callStmt "print" (.cons (.interpolatedString segs) .nil))
        .nil).hasNonEmptyInterp = true := by
      cases segs with
      | nil => exact absurd rfl h1
      | cons s rest =>
        simp [StatementList.hasNonEmptyInterp, Statement.hasNonEmptyInterp,
          ExpressionList.hasNonEmptyInterp, Expression.hasNonEmptyInterp]
    rw [flawless_process_eq, hb]
    simp

/-- Witness for C10 at `[String "hello"]`. -/
theorem c10_all_string_segments_witness :
    (RemoveInterpolatedStringProcessor.new STRING_FORMAT_IDENTIFIER).replace_with
        c10segs =
      (.functionCall
          (RemoveInterpolatedStringProcessor.new
            STRING_FORMAT_IDENTIFIER).string_format_identifier
          (.cons (.stringExpr (formatString c10segs)) .nil),
        { RemoveInterpolatedStringProcessor.new STRING_FORMAT_IDENTIFIER with
            define_string_format := true }) ∧
    RemoveInterpolatedString.defaultRule.flawless_process c10block demoContext =
      StatementList.cons preludeStatement
        (visitBlock (RemoveInterpolatedStringProcessor.new STRING_FORMAT_IDENTIFIER)
          c10block).1 :=
  c10_all_string_segments (RemoveInterpolatedStringProcessor.new STRING_FORMAT_IDENTIFIER)
    demoContext c10segs (by decide) (by decide)
